import Mathlib

/-! Shallow embedding of `cfb_redzone` (files `cfb_redzone.py`, `config.py`).

The embedding has two layers, mirroring the Python code:

* a dynamically-typed JSON layer for the two feed-parsing functions
  (`ESPNFetcher.fetch_scoreboard`, `ESPNFetcher.fetch_latest_play`):
  values are modelled by an inductive `JSON` type, Python truthiness by
  `truthy`, and operations that can raise (`.get` on a non-dict,
  iteration over a non-iterable, `int(...)` coercion, `" vs ".join`,
  `list + list`) return `Except PyErr`;

* an idealized layer for the monitoring loop in `main` (lines 288-340),
  over the `Game` dataclass as annotated in the source (string fields),
  a `PlayState` (description string, optional integer yard line), and a
  `LoopState` holding the loop's mutable variables `last_switch_time`
  and `currently_featured_game` together with the immutable
  `game_launches` list.  The per-game fetch outcome of one poll cycle is
  an input of the cycle function: `none` models the fetch raising an
  exception (caught by the `try/except` at lines 300-304).

Machine times (`time.time()`) are modelled as integers; only their
ordering and differences matter to the code under verification.
-/

namespace CfbRedzone

/-! Section: configuration constants of `config.py`. -/

/-- From `config.py` line 16: `POLL_INTERVAL = 12`. -/
def POLL_INTERVAL : Int := 12

/-- From `config.py` line 19: `SWITCH_GRACE_SECONDS = 10`. -/
def SWITCH_GRACE_SECONDS : Int := 10

/-- From `config.py` line 22: `RED_ZONE_YARDS = 20`. -/
def RED_ZONE_YARDS : Int := 20

/-! Section: JSON values and Python dynamic primitives. -/

/-- A parsed JSON value, as `requests.Response.json()` would produce it.
Numbers are modelled as integers (every number the program inspects is
fed to `int(...)` or is ignored). -/
inductive JSON where
  | null : JSON
  | bool (b : Bool) : JSON
  | num (n : Int) : JSON
  | str (s : String) : JSON
  | arr (xs : List JSON) : JSON
  | obj (kvs : List (String × JSON)) : JSON

/-- The Python exceptions the modelled fragments can raise. -/
inductive PyErr where
  | attributeError : PyErr
  | typeError : PyErr
  | indexError : PyErr
  | keyError : PyErr
deriving DecidableEq

/-- Lookup of a key in a JSON object body (Python dict lookup; keys are
unique in a dict, so first match). -/
def pyLookup (kvs : List (String × JSON)) (k : String) : Option JSON :=
  (kvs.find? (fun p => p.1 == k)).map (fun p => p.2)

/-- Python truthiness of a JSON value: `None`, `False`, `0`, `""`, `[]`
and `\x7b\x7d` are falsy, everything else truthy. -/
def truthy : JSON → Bool
  | .null => false
  | .bool b => b
  | .num n => n != 0
  | .str s => s != ""
  | .arr xs => !xs.isEmpty
  | .obj kvs => !kvs.isEmpty

/-- Truthiness of an optional JSON value (a Python variable that may
hold `None`). -/
def truthyOpt : Option JSON → Bool
  | none => false
  | some j => truthy j

/-- Python `x.get(k)` — `None` when the key is absent; `AttributeError` when
`x` is not a dict. -/
def pyGetAttr (x : JSON) (k : String) : Except PyErr (Option JSON) :=
  match x with
  | .obj kvs => .ok (pyLookup kvs k)
  | _ => .error .attributeError

/-- Python `x.get(k, d)` with an explicit default. -/
def pyGetD (x : JSON) (k : String) (d : JSON) : Except PyErr JSON :=
  match x with
  | .obj kvs => .ok ((pyLookup kvs k).getD d)
  | _ => .error .attributeError

/-- Python `x or d` for a JSON value: `x` when truthy, else `d`. -/
def pyOrElse (x d : JSON) : JSON := if truthy x then x else d

/-- Iteration `for v in x`: lists yield their elements, strings their
characters (as one-character strings), dicts their keys; `None`,
numbers and booleans raise `TypeError`. -/
def pyIter : JSON → Except PyErr (List JSON)
  | .arr xs => .ok xs
  | .str s => .ok (s.toList.map (fun c => .str (String.singleton c)))
  | .obj kvs => .ok (kvs.map (fun p => .str p.1))
  | _ => .error .typeError

/-- Does some suffix of `hay` start with `pat`? -/
def listContains (pat : List Char) : List Char → Bool
  | [] => pat.isEmpty
  | c :: rest => pat.isPrefixOf (c :: rest) || listContains pat rest

/-- Substring test, as Python `needle in haystack` on strings. -/
def strContains (hay pat : String) : Bool :=
  listContains pat.toList hay.toList

/-- Membership `k in x` for a string `k`: element equality for lists,
substring for strings, key membership for dicts; `TypeError` otherwise. -/
def pyContains (x : JSON) (k : String) : Except PyErr Bool :=
  match x with
  | .arr xs => .ok (xs.any (fun e => match e with | .str s => s == k | _ => false))
  | .str s => .ok (strContains s k)
  | .obj kvs => .ok ((pyLookup kvs k).isSome)
  | _ => .error .typeError

/-- Decimal digits to a natural number. -/
def digitsToNat (ds : List Char) : Nat :=
  ds.foldl (fun acc c => acc * 10 + (c.toNat - 48)) 0

/-- Python `int(s)` on a string: optional surrounding whitespace, an optional
sign, then at least one digit. -/
def pyIntOfStr (s : String) : Option Int :=
  let t := s.data.dropWhile Char.isWhitespace
  let t := (t.reverse.dropWhile Char.isWhitespace).reverse
  match t with
  | [] => none
  | c :: rest =>
    let digits := if c = '-' || c = '+' then rest else c :: rest
    if !digits.isEmpty && digits.all Char.isDigit then
      some (if c = '-' then -(digitsToNat digits : Int) else (digitsToNat digits : Int))
    else
      none

/-- Python `int(x)` coercion: numbers and booleans coerce, strings are parsed,
`None`, lists and dicts raise (`none`). -/
def pyInt : JSON → Option Int
  | .num n => some n
  | .bool b => some (if b then 1 else 0)
  | .str s => pyIntOfStr s
  | _ => none

/-- Python `str(x)` on scalars; containers are rendered only far enough for the
`id=str(cid)` field, which no claim inspects. -/
def sq : String := String.singleton (Char.ofNat 39)

def pyRepr : JSON → String
  | .null => "None"
  | .bool b => if b then "True" else "False"
  | .num n => toString n
  | .str s => sq ++ s ++ sq
  | .arr xs => "[" ++ String.intercalate ", " (xs.attach.map (fun x => pyRepr x.1)) ++ "]"
  | .obj kvs =>
      "\x7b" ++
        String.intercalate ", "
          (kvs.attach.map (fun p => sq ++ p.1.1 ++ sq ++ ": " ++ pyRepr p.1.2)) ++
      "\x7d"
decreasing_by
  · have h1 := List.sizeOf_lt_of_mem x.2
    have h2 : sizeOf (JSON.arr xs) = 1 + sizeOf xs := by simp
    omega
  · have h1 := List.sizeOf_lt_of_mem p.2
    have h2 : sizeOf (JSON.obj kvs) = 1 + sizeOf kvs := by simp
    have h3 : sizeOf p.1.2 < sizeOf p.1 := by
      obtain ⟨⟨a, b⟩, hp⟩ := p
      simp
    omega

def pyStr (j : JSON) : String :=
  match j with
  | .str s => s
  | _ => pyRepr j

/-! Section: `ESPNFetcher.fetch_latest_play`, cfb_redzone.py lines 112-156. -/

/-- Python `xs[-1]` subscripting for the shapes the fallback value can take:
last element of a list, last character of a string; `dict[-1]` raises
`KeyError`, `None`, numbers and booleans raise `TypeError`, an empty
sequence raises `IndexError`. -/
def pyIndexLast : JSON → Except PyErr JSON
  | .arr xs =>
    match xs.getLast? with
    | some x => .ok x
    | none => .error .indexError
  | .str s =>
    match s.toList.getLast? with
    | some c => .ok (.str (String.singleton c))
    | none => .error .indexError
  | .obj _ => .error .keyError
  | _ => .error .typeError

/-- Python `a or b or ... or d` over optional values (each `x.get(k)` result,
`None` when absent): the first truthy value, else the final operand. -/
def pyOrChain : List (Option JSON) → JSON → JSON
  | [], d => d
  | v :: rest, d =>
    let x := v.getD .null
    if truthy x then x else pyOrChain rest d

/-- Lines 131-135: `for d in drives.get("entries", []) or []: for p in
d.get("plays", []) or []: plays.append(p)`. -/
def collectDrivePlays (entries : List JSON) : Except PyErr (List JSON) :=
  entries.foldlM (fun acc d => do
    let pv ← pyGetD d "plays" (.arr [])
    let ps ← pyIter (pyOrElse pv (.arr []))
    pure (acc ++ ps)) []

/-- The key tuple of line 148:
`("yardLine", "yardLineNumber", "startYardLine", "yardsToGo")`. -/
def YARD_KEYS : List String := ["yardLine", "yardLineNumber", "startYardLine", "yardsToGo"]

/-- Coercion `int(last.get(key) or 0)` of line 151: a falsy value is replaced by
`0` before coercion; `none` models the coercion raising. -/
def coerceYard (v : JSON) : Option Int :=
  pyInt (pyOrElse v (.num 0))

/-- The key loop of lines 148-155: first key present in the play whose
value coerces (`break`); a failed coercion is `pass`ed over. -/
def yardlineLoop : List String → List (String × JSON) → Option Int
  | [], _ => none
  | k :: ks, kvs =>
    match pyLookup kvs k with
    | none => yardlineLoop ks kvs
    | some v =>
      match coerceYard v with
      | some n => some n
      | none => yardlineLoop ks kvs

/-- The dict with keys desc, yardline and raw returned at
line 156. -/
structure PlayResult where
  desc : JSON
  yardline : Option Int
  raw : JSON

/-- Lines 127-135: the play-locating stage — the top-level `plays`
value when it is a list, else the `plays` lists collected from
`drives.entries`. -/
def locatePlays (j : JSON) : Except PyErr (List JSON) := do
  let playsTop ← pyGetAttr j "plays"
  match playsTop with
  | some (.arr ps) => pure ps
  | _ => do
      let drivesOpt ← pyGetAttr j "drives"
      let drives := pyOrElse (drivesOpt.getD .null) (.obj [])
      let entriesV ← pyGetD drives "entries" (.arr [])
      let entries ← pyIter (pyOrElse entriesV (.arr []))
      collectDrivePlays entries

/-- Lines 136-138: the fallback value `j.get("items", []) or []` used
when the locating stage found no plays. -/
def itemsFallback (j : JSON) : Except PyErr JSON := do
  let itemsV ← pyGetD j "items" (.arr [])
  pure (pyOrElse itemsV (.arr []))

/-- Lines 123-156 of `fetch_latest_play`, applied to the decoded JSON
response: locate the last play (top-level `plays` list, else
`drives.entries[*].plays`, else `items`), then extract description and
yard line.  `ok none` models the `return \x7b\x7d` branches. -/
def fetchPlaysFromJson (j : JSON) : Except PyErr (Option PlayResult) := do
  let plays ← locatePlays j
  let playsJ ←
    if plays.isEmpty then itemsFallback j
    else pure (JSON.arr plays)
  if truthy playsJ then do
    let last ← pyIndexLast playsJ
    match last with
    | .obj kvs =>
        let desc := pyOrChain
          [pyLookup kvs "text", pyLookup kvs "description", pyLookup kvs "playDescription"]
          (.str "")
        let yardline := yardlineLoop YARD_KEYS kvs
        pure (some ⟨desc, yardline, last⟩)
    | _ => .error .attributeError
  else
    pure none

/-- Function `ESPNFetcher.fetch_latest_play` (lines 112-156): a falsy href short
circuits to `\x7b\x7d` (line 118-119); otherwise the decoded response
body is searched for the latest play. -/
def fetch_latest_play (play_by_play_href : String) (response : JSON) :
    Except PyErr (Option PlayResult) :=
  if play_by_play_href = "" then .ok none else fetchPlaysFromJson response

/-! Section: the per-game score heuristic, cfb_redzone.py lines 305-317. -/

/-- Python `str.lower()` (ASCII range, which covers every phrase the
program tests for). -/
def pyLower (s : String) : String :=
  String.mk (s.data.map Char.toLower)

/-- From line 314: the fixed red-zone phrase set tested against the
lowercased description. -/
def redZonePhrase (txt : String) : Bool :=
  strContains txt "in the red zone" || strContains txt "inside the 20" ||
    strContains txt "inside the 10"

/-- From line 316: `"touchdown" in txt`. -/
def touchdownPhrase (txt : String) : Bool :=
  strContains txt "touchdown"

/-- Lines 307-317 of `main`: the switching score of one game's fetched
play state.  `score = 0`; if a yard line is present,
`score = max(0, (RED_ZONE_YARDS - yardline) + 50)`; `+100` for a
red-zone phrase in the lowercased description, `+80` for `"touchdown"`. -/
def scoreOf (desc : String) (yardline : Option Int) : Int :=
  let score : Int := 0
  let score :=
    match yardline with
    | none => score
    | some y => max 0 ((RED_ZONE_YARDS - y) + 50)
  let txt := pyLower desc
  let score := if redZonePhrase txt then score + 100 else score
  let score := if touchdownPhrase txt then score + 80 else score
  score

/-- Spec-side decomposition: the contribution of the field-position
reading alone (lines 309-311). -/
def yardScoreOf : Option Int → Int
  | none => 0
  | some y => max 0 ((RED_ZONE_YARDS - y) + 50)

/-- Spec-side decomposition: the contribution of the text heuristics
alone (lines 313-317). -/
def textScoreOf (desc : String) : Int :=
  let txt := pyLower desc
  (if redZonePhrase txt then (100 : Int) else 0) +
    (if touchdownPhrase txt then (80 : Int) else 0)

/-- The score is the sum of the field-position contribution and the text
contribution. -/
lemma scoreOf_decompose (desc : String) (yardline : Option Int) :
    scoreOf desc yardline = yardScoreOf yardline + textScoreOf desc := by
  unfold scoreOf yardScoreOf textScoreOf
  cases yardline <;> simp only <;> split <;> split <;> omega

/-- The field-position contribution is nonnegative. -/
lemma yardScoreOf_nonneg (yardline : Option Int) : 0 ≤ yardScoreOf yardline := by
  cases yardline with
  | none => simp [yardScoreOf]
  | some y => exact le_max_left _ _

/-- The text contribution is nonnegative. -/
lemma textScoreOf_nonneg (desc : String) : 0 ≤ textScoreOf desc := by
  unfold textScoreOf
  simp only
  split <;> split <;> omega

/-- Scores are never negative. -/
lemma scoreOf_nonneg (desc : String) (yardline : Option Int) :
    0 ≤ scoreOf desc yardline := by
  rw [scoreOf_decompose]
  have h1 := yardScoreOf_nonneg yardline
  have h2 := textScoreOf_nonneg desc
  omega

/-! Section: the monitoring loop, cfb_redzone.py lines 288-340. -/

/-- The `Game` dataclass (lines 37-42), with the field types of its
annotations. -/
structure Game where
  id : String
  short_name : String
  competition_href : String
  play_by_play_href : Option String
deriving DecidableEq

/-- One element of `game_launches`: the tuple `(g, svc, url)` built at
lines 263-272. -/
structure LaunchEntry where
  game : Game
  svc : String
  url : String
deriving DecidableEq

/-- The play state the loop derives from one fetch (lines 305-306):
`desc = info.get("desc", "") or ""` and `yardline = info.get("yardline")`. -/
structure PlayState where
  desc : String
  yardline : Option Int
deriving DecidableEq

/-- The state a fetch that raised, returned `\x7b\x7d`, or was skipped
for lack of an href leaves behind: empty description, no yard line. -/
def emptyPlayState : PlayState := ⟨"", none⟩

/-- The loop's mutable variables (lines 290-291) together with the
tracked-game list, which the loop never modifies. -/
structure LoopState where
  last_switch_time : Int
  currently_featured_game : Option Game
  game_launches : List LaunchEntry
deriving DecidableEq

/-- Lines 299-306: the play state used for a game in one cycle.
`outcome = none` models `fetch_latest_play` raising (caught at lines
303-304); the fetch only happens when `g.play_by_play_href` is truthy. -/
def gameInfo (g : Game) (outcome : Option PlayState) : PlayState :=
  match g.play_by_play_href with
  | none => emptyPlayState
  | some href => if href = "" then emptyPlayState else outcome.getD emptyPlayState

/-- The per-cycle list of (launch entry, derived play state) pairs, in
tracked order. -/
def cycleEntries (launches : List LaunchEntry) (outcomes : List (Option PlayState)) :
    List (LaunchEntry × PlayState) :=
  (launches.zip outcomes).map (fun p => (p.1, gameInfo p.1.game p.2))

/-- The score of one scanned entry. -/
def scoreOfPS (ps : PlayState) : Int := scoreOf ps.desc ps.yardline

/-- One iteration of the best-game scan (lines 319-321):
`if score > best_metric: best_metric = score; best_game = (...)`. -/
def bestStep (acc : Option (LaunchEntry × PlayState) × Int) (x : LaunchEntry × PlayState) :
    Option (LaunchEntry × PlayState) × Int :=
  if scoreOfPS x.2 > acc.2 then (some x, scoreOfPS x.2) else acc

/-- The full scan, from `best_game = None; best_metric = -999`
(lines 295-296). -/
def bestOfEntries (entries : List (LaunchEntry × PlayState)) :
    Option (LaunchEntry × PlayState) × Int :=
  entries.foldl bestStep (none, -999)

/-- Best game and metric of one cycle over the tracked games. -/
def bestOf (launches : List LaunchEntry) (outcomes : List (Option PlayState)) :
    Option (LaunchEntry × PlayState) × Int :=
  bestOfEntries (cycleEntries launches outcomes)

/-- The characters before the first occurrence of the separator — the
`[0]` element of a Python `split` (the whole string when the separator
does not occur). -/
def splitFirst (sep : List Char) : List Char → List Char
  | [] => []
  | c :: rest =>
    if !sep.isEmpty && sep.isPrefixOf (c :: rest) then []
    else c :: splitFirst sep rest

/-- From line 329: `title_hint = g.short_name.split(" vs ")[0]`. -/
def title_hint (g : Game) : String :=
  String.mk (splitFirst " vs ".data g.short_name.data)

/-- One iteration of the `while True` monitor (lines 294-340), without
the sleep.  `activate hint timeout` is the oracle for
`bring_window_to_front_by_title_hint(hint, timeout)`; `tnow` is
`time.time()` at line 324.  The reassignment
`if not success: success = bring_window_...(url, timeout=2)` at lines
332-333 is the short-circuit disjunction of the two activation
attempts. -/
def pollCycle (activate : String → Nat → Bool) (st : LoopState)
    (outcomes : List (Option PlayState)) (tnow : Int) : LoopState :=
  match (bestOf st.game_launches outcomes).1 with
  | none => st
  | some b =>
    if (bestOf st.game_launches outcomes).2 > 0 ∧
        tnow - st.last_switch_time > SWITCH_GRACE_SECONDS then
      if activate (title_hint b.1.game) 4 || activate b.1.url 2 then
        { st with currently_featured_game := some b.1.game, last_switch_time := tnow }
      else st
    else st

/-- The guard of line 325: a switch is attempted exactly when
`best_game` is set, `best_metric > 0`, and the grace period has strictly
elapsed. -/
def switchAttempted (st : LoopState) (outcomes : List (Option PlayState)) (tnow : Int) : Bool :=
  let best := bestOf st.game_launches outcomes
  best.1.isSome && decide (best.2 > 0) &&
    decide (tnow - st.last_switch_time > SWITCH_GRACE_SECONDS)

/-! Section: characterizing the best-game scan. -/

/-- The metric of the scan is the running maximum of the scores. -/
lemma bestFold_metric (l : List (LaunchEntry × PlayState))
    (b0 : Option (LaunchEntry × PlayState)) (m0 : Int) :
    (l.foldl bestStep (b0, m0)).2 = l.foldl (fun m x => max m (scoreOfPS x.2)) m0 := by
  induction l generalizing b0 m0 with
  | nil => rfl
  | cons x xs ih =>
    simp only [List.foldl, bestStep]
    by_cases h : scoreOfPS x.2 > m0
    · rw [if_pos h, ih, max_eq_right (le_of_lt h)]
    · rw [if_neg h, ih, max_eq_left (not_lt.mp h)]

/-- The metric never drops below its starting value. -/
lemma bestFold_metric_mono (l : List (LaunchEntry × PlayState))
    (b0 : Option (LaunchEntry × PlayState)) (m0 : Int) :
    m0 ≤ (l.foldl bestStep (b0, m0)).2 := by
  induction l generalizing b0 m0 with
  | nil => exact le_refl _
  | cons x xs ih =>
    simp only [List.foldl, bestStep]
    by_cases h : scoreOfPS x.2 > m0
    · rw [if_pos h]; exact le_trans (le_of_lt h) (ih _ _)
    · rw [if_neg h]; exact ih _ _

/-- The final metric dominates every scanned score. -/
lemma bestFold_metric_ge (l : List (LaunchEntry × PlayState))
    (b0 : Option (LaunchEntry × PlayState)) (m0 : Int) :
    ∀ x ∈ l, scoreOfPS x.2 ≤ (l.foldl bestStep (b0, m0)).2 := by
  induction l generalizing b0 m0 with
  | nil => intro x hx; cases hx
  | cons y ys ih =>
    intro x hx
    simp only [List.foldl, bestStep]
    rcases List.mem_cons.mp hx with rfl | hmem
    · by_cases h : scoreOfPS x.2 > m0
      · rw [if_pos h]; exact bestFold_metric_mono ys (some x) _
      · rw [if_neg h]; exact le_trans (not_lt.mp h) (bestFold_metric_mono ys b0 m0)
    · by_cases h : scoreOfPS y.2 > m0
      · rw [if_pos h]; exact ih _ _ x hmem
      · rw [if_neg h]; exact ih _ _ x hmem

/-- Once a candidate is recorded it is never cleared. -/
lemma bestFold_isSome (l : List (LaunchEntry × PlayState))
    (a : LaunchEntry × PlayState) (m0 : Int) :
    (l.foldl bestStep (some a, m0)).1.isSome := by
  induction l generalizing a m0 with
  | nil => rfl
  | cons x xs ih =>
    simp only [List.foldl, bestStep]
    by_cases h : scoreOfPS x.2 > m0
    · rw [if_pos h]; exact ih x _
    · rw [if_neg h]; exact ih a m0

/-- The recorded candidate is the first element achieving the final
metric, whenever the metric improved on its starting value (the
comparison at line 319 is strict, so earlier elements win ties). -/
lemma bestFold_first_max (l : List (LaunchEntry × PlayState))
    (b0 : Option (LaunchEntry × PlayState)) (m0 : Int) :
    (l.foldl bestStep (b0, m0)).1 =
      if m0 < (l.foldl bestStep (b0, m0)).2 then
        l.find? (fun x => scoreOfPS x.2 == (l.foldl bestStep (b0, m0)).2)
      else b0 := by
  induction l generalizing b0 m0 with
  | nil => simp [List.foldl]
  | cons x xs ih =>
    simp only [List.foldl, bestStep]
    by_cases h : scoreOfPS x.2 > m0
    · rw [if_pos h]
      have hm : m0 < (xs.foldl bestStep (some x, scoreOfPS x.2)).2 :=
        lt_of_lt_of_le h (bestFold_metric_mono xs (some x) _)
      rw [if_pos hm]
      have hle : scoreOfPS x.2 ≤ (xs.foldl bestStep (some x, scoreOfPS x.2)).2 :=
        bestFold_metric_mono xs (some x) _
      by_cases hsM : scoreOfPS x.2 = (xs.foldl bestStep (some x, scoreOfPS x.2)).2
      · rw [List.find?_cons_of_pos _ (by simpa using hsM), ih]
        rw [if_neg (by omega)]
      · rw [List.find?_cons_of_neg _ (by simpa using hsM), ih]
        rw [if_pos (by omega)]
    · rw [if_neg h]
      by_cases hm : m0 < (xs.foldl bestStep (b0, m0)).2
      · rw [if_pos hm, ih, if_pos hm]
        have hne : scoreOfPS x.2 ≠ (xs.foldl bestStep (b0, m0)).2 := by
          have := not_lt.mp h; omega
        rw [List.find?_cons_of_neg _ (by simpa using hne)]
      · rw [if_neg hm, ih, if_neg hm]

/-! Section: `ESPNFetcher.fetch_scoreboard`, cfb_redzone.py lines 75-110. -/

/-- The record actually appended at line 109.  The Python `Game`
constructor is not type checked, so the stored values are arbitrary JSON
(`id` alone passes through `str(...)`). -/
structure SBGame where
  id : String
  short_name : JSON
  competition_href : JSON
  play_by_play_href : Option JSON

/-- From line 83: `data.get("events", []) + data.get("competitions", [])`,
producing the sequence the event loop walks (`+` concatenates two lists,
or two strings — anything else raises `TypeError`). -/
def eventsOf (data : JSON) : Except PyErr (List JSON) := do
  let events ← pyGetD data "events" (.arr [])
  let comps ← pyGetD data "competitions" (.arr [])
  match events, comps with
  | .arr a, .arr b => pure (a ++ b)
  | .str s, .str t => pure ((s ++ t).toList.map (fun c => JSON.str (String.singleton c)))
  | _, _ => .error .typeError

/-- The link loop of lines 90-95: the last summary-like link decides
`href`, the last play-by-play-like link decides `play_href`; a matching
link without an `href` key resets the variable to `None`. -/
def processLinks (links : List JSON) : Except PyErr (Option JSON × Option JSON) :=
  links.foldlM (fun acc link => do
    let rel ← pyGetD link "rel" (.arr [])
    let b1 ← do
      let s1 ← pyContains rel "summary"
      if s1 then pure true
      else do
        let s2 ← pyContains rel "gamepackage"
        if s2 then pure true else pyContains rel "boxscore"
    let hrefv ← pyGetAttr link "href"
    let acc := if b1 then (hrefv, acc.2) else acc
    let b2 ← do
      let s1 ← pyContains rel "playbyplay"
      if s1 then pure true else pyContains rel "pbp"
    pure (if b2 then (acc.1, hrefv) else acc)) (none, none)

/-- The pieces the loop body computes for one event before the
`if href:` append decision. -/
structure EventParts where
  cid : JSON
  href : Option JSON
  play_href : Option JSON
  short_name : JSON

/-- Lines 84-106: id resolution, link scan, `shortLinkHref` fallback,
competitor names, `short_name` construction. -/
def eventData (ev : JSON) : Except PyErr EventParts := do
  let _ ← pyContains ev "id"
  let idv ← pyGetAttr ev "id"
  let uidv ← pyGetAttr ev "uid"
  let gidv ← pyGetAttr ev "gameId"
  let namev ← pyGetAttr ev "name"
  let cid := pyOrChain [idv, uidv, gidv] (.str (pyStr (namev.getD .null)))
  let linksV ← pyGetD ev "links" (.arr [])
  let links ← pyIter linksV
  let lr ← processLinks links
  let href ←
    if truthyOpt lr.1 then pure lr.1
    else do
      let slv ← pyGetD ev "shortLinkHref" (.arr [])
      let items ← pyIter slv
      pure (match items.getLast? with | some l => some l | none => lr.1)
  let compsV ← pyGetD ev "competitors" (.arr [])
  let cs ← pyIter compsV
  let teams ← cs.mapM (fun c => do
    let tv ← pyGetD c "team" (.obj [])
    let sdn ← pyGetAttr tv "shortDisplayName"
    let dn ← pyGetAttr c "displayName"
    let ab ← pyGetAttr c "abbreviation"
    pure (pyOrChain [sdn, dn] (ab.getD .null)))
  let short_name ←
    if teams.isEmpty then
      pyGetD ev "name" cid
    else do
      let strs ← teams.mapM (fun t =>
        match t with
        | .str s => Except.ok s
        | _ => Except.error PyErr.typeError)
      pure (JSON.str (String.intercalate " vs " strs))
  pure ⟨cid, href, lr.2, short_name⟩

/-- Lines 108-109: the event contributes a game exactly when `href` is
truthy. -/
def finishEvent (p : EventParts) : Option SBGame :=
  match p.href with
  | some h => if truthy h then some ⟨pyStr p.cid, p.short_name, h, p.play_href⟩ else none
  | none => none

/-- The whole loop body for one event. -/
def processEvent (ev : JSON) : Except PyErr (Option SBGame) :=
  (eventData ev).map finishEvent

/-- The event loop, accumulating `games`. -/
def scoreboardLoop : List JSON → List SBGame → Except PyErr (List SBGame)
  | [], gs => .ok gs
  | ev :: evs, gs => do
    let r ← processEvent ev
    scoreboardLoop evs (gs ++ r.toList)

/-- `ESPNFetcher.fetch_scoreboard` (lines 75-110), applied to the
decoded scoreboard JSON. -/
def fetch_scoreboard (data : JSON) : Except PyErr (List SBGame) := do
  let evs ← eventsOf data
  scoreboardLoop evs []

/-! Section: scoreboard invariants. -/

/-- A finished event record always carries the truthy href that let it
through the `if href:` gate. -/
lemma finishEvent_href (p : EventParts) (g : SBGame) :
    finishEvent p = some g → truthy g.competition_href = true := by
  intro he
  unfold finishEvent at he
  split at he
  · split at he
    · cases he
      assumption
    · cases he
  · cases he

/-- Lifting `finishEvent_href` through the monadic event body. -/
lemma processEvent_href (ev : JSON) (g : SBGame) :
    processEvent ev = .ok (some g) → truthy g.competition_href = true := by
  unfold processEvent
  cases hd : eventData ev with
  | error e => intro h; cases h
  | ok p =>
    intro h
    simp only [Except.map] at h
    exact finishEvent_href p g (Except.ok.inj h)

/-- Invariant of the event loop: every accumulated game either was
already present or passed the truthy-href gate, and each event adds at
most one game. -/
lemma scoreboardLoop_inv : ∀ (evs : List JSON) (gs0 out : List SBGame),
    scoreboardLoop evs gs0 = .ok out →
    (∀ g ∈ out, g ∈ gs0 ∨ truthy g.competition_href = true) ∧
      out.length ≤ gs0.length + evs.length := by
  intro evs
  induction evs with
  | nil =>
    intro gs0 out h
    cases h
    exact ⟨fun g hg => Or.inl hg, by simp⟩
  | cons ev evs ih =>
    intro gs0 out h
    simp only [scoreboardLoop] at h
    cases hp : processEvent ev with
    | error e =>
      rw [hp] at h
      cases h
    | ok r =>
      rw [hp] at h
      have hrec := ih (gs0 ++ r.toList) out h
      refine ⟨?_, ?_⟩
      · intro g hg
        rcases hrec.1 g hg with hmem | hinv
        · rcases List.mem_append.mp hmem with h1 | h2
          · exact Or.inl h1
          · cases hr : r with
            | none => rw [hr] at h2; cases h2
            | some g2 =>
              rw [hr] at h2
              simp only [Option.toList, List.mem_singleton] at h2
              subst h2
              exact Or.inr (processEvent_href ev g (hr ▸ hp))
        · exact Or.inr hinv
      · have h1 := hrec.2
        have h2 : r.toList.length ≤ 1 := by cases r <;> simp
        simp only [List.length_append, List.length_cons] at h1 ⊢
        omega

/-! Section: cycle-level helper lemmas. -/

/-- A raised fetch leaves the empty play state. -/
lemma gameInfo_none_eq_empty (g : Game) : gameInfo g none = emptyPlayState := by
  unfold gameInfo
  split
  · rfl
  · split <;> rfl

/-- An explicit empty state also derives the empty play state. -/
lemma gameInfo_some_empty (g : Game) :
    gameInfo g (some emptyPlayState) = emptyPlayState := by
  unfold gameInfo
  split
  · rfl
  · split <;> rfl

/-- A raised fetch and an explicit empty state are indistinguishable to
the cycle. -/
lemma gameInfo_none_eq (g : Game) :
    gameInfo g none = gameInfo g (some emptyPlayState) := by
  rw [gameInfo_none_eq_empty, gameInfo_some_empty]

/-- The scores of one poll cycle, in tracked order. -/
def cycleScores (launches : List LaunchEntry) (outcomes : List (Option PlayState)) : List Int :=
  (cycleEntries launches outcomes).map (fun e => scoreOfPS e.2)

/-- Replacing one game's fetch outcome by an outcome with the same
derived play state leaves the cycle's entry list unchanged. -/
lemma cycleEntries_set_congr (launches : List LaunchEntry) :
    ∀ (outcomes : List (Option PlayState)) (i : Nat) (o1 o2 : Option PlayState),
    (∀ g, gameInfo g o1 = gameInfo g o2) →
    cycleEntries launches (outcomes.set i o1) = cycleEntries launches (outcomes.set i o2) := by
  induction launches with
  | nil => intros; rfl
  | cons l ls ih =>
    intro outcomes i o1 o2 h
    cases outcomes with
    | nil => rfl
    | cons oh os =>
      cases i with
      | zero =>
        show (l, gameInfo l.game o1) :: cycleEntries ls os =
          (l, gameInfo l.game o2) :: cycleEntries ls os
        rw [h l.game]
      | succ n =>
        show (l, gameInfo l.game oh) :: cycleEntries ls (os.set n o1) =
          (l, gameInfo l.game oh) :: cycleEntries ls (os.set n o2)
        rw [ih os n o1 o2 h]

/-- Replacing one game's fetch outcome does not change any other
position of the cycle's score list. -/
lemma cycleScores_set_ne (launches : List LaunchEntry) :
    ∀ (outcomes : List (Option PlayState)) (i j : Nat) (o : Option PlayState), j ≠ i →
    (cycleScores launches (outcomes.set i o)).get? j =
      (cycleScores launches outcomes).get? j := by
  induction launches with
  | nil => intros; rfl
  | cons l ls ih =>
    intro outcomes i j o hne
    cases outcomes with
    | nil => cases i <;> rfl
    | cons oh os =>
      cases i with
      | zero =>
        cases j with
        | zero => exact absurd rfl hne
        | succ m => rfl
      | succ n =>
        cases j with
        | zero => rfl
        | succ m => exact ih os n m o (fun e => hne (congrArg Nat.succ e))

/-! Section: claim theorems. -/

/-- C1: for every game whose latest play carries a field-position value
`v`, the non-text score contribution (the difference the field-position
reading makes to the score, for any description) equals
`max(0, (RED_ZONE_YARDS - v) + 50)`; in particular, at
`v = RED_ZONE_YARDS` the contribution is exactly 50. -/
theorem c1_fieldpos_contribution (v : Int) (desc : String) :
    scoreOf desc (some v) - scoreOf desc none = max 0 ((RED_ZONE_YARDS - v) + 50) ∧
    scoreOf "" (some RED_ZONE_YARDS) = 50 := by
  constructor
  · rw [scoreOf_decompose, scoreOf_decompose]
    simp only [yardScoreOf]
    generalize max 0 ((RED_ZONE_YARDS - v) + 50) = a
    omega
  · rfl

/-- C5 counterexample: at `v = RED_ZONE_YARDS - 50` the non-text
contribution is 100, not 0 — the claimed cut-off is on the wrong side of
the threshold. -/
theorem c5_counterexample :
    scoreOf "" (some (RED_ZONE_YARDS - 50)) = 100 ∧
    ¬ (scoreOf "" (some (RED_ZONE_YARDS - 50)) = 0) := by
  constructor
  · rfl
  · decide

/-- C5 amended: for every field-position value `v` equal to
`RED_ZONE_YARDS + 50` or higher, the non-text score contribution is 0. -/
theorem c5_amended_zero_contribution (v : Int) (desc : String)
    (h : RED_ZONE_YARDS + 50 ≤ v) :
    scoreOf desc (some v) - scoreOf desc none = 0 := by
  rw [scoreOf_decompose, scoreOf_decompose]
  simp only [yardScoreOf]
  rw [max_eq_left (by unfold RED_ZONE_YARDS at h ⊢; omega)]
  omega

/-- Witness for C5's amended theorem at `v = 70`. -/
theorem c5_amended_zero_contribution_witness :
    scoreOf "" (some 70) - scoreOf "" none = 0 :=
  c5_amended_zero_contribution 70 "" (by decide)

/-- C6: text contributions are additive and independent of
field-position presence — a description containing (after lowercasing)
both a red-zone phrase and the scoring phrase contributes exactly 180 on
top of the field-position contribution, for any yard-line value and for
no yard line at all. -/
theorem c6_text_additive (desc : String) (yl : Option Int)
    (h1 : redZonePhrase (pyLower desc) = true)
    (h2 : touchdownPhrase (pyLower desc) = true) :
    scoreOf desc yl = yardScoreOf yl + 180 ∧ scoreOf desc none = 180 := by
  have ht : textScoreOf desc = 180 := by
    unfold textScoreOf
    simp only [h1, h2, if_true]
    decide
  constructor
  · rw [scoreOf_decompose, ht]
  · rw [scoreOf_decompose, ht]
    rfl

/-- Witness for C6 on a concrete description containing both phrases,
with and without a field position. -/
theorem c6_text_additive_witness :
    scoreOf "Touchdown! Now inside the 10" (some 5) =
      yardScoreOf (some 5) + 180 ∧
    scoreOf "Touchdown! Now inside the 10" none = 180 :=
  c6_text_additive "Touchdown! Now inside the 10" (some 5) (by decide) (by decide)

/-- C2 counterexample: on a malformed feed response whose top level is a
JSON array, `fetch_latest_play` raises `AttributeError`
(`j.get("plays")` on a list) instead of returning an empty state. -/
theorem c2_counterexample_raises :
    fetch_latest_play "http://x/pbp" (JSON.arr []) = .error .attributeError := rfl

/-- C2 amended: `fetch_latest_play` returns an empty state (no
description, no field position) when the play-by-play reference is
missing (falsy), and whenever its play-locating stage (top-level
`plays` list, else drive plays) completes without raising and finds no
plays while the `items` fallback value is falsy; it does not degrade
silently on all malformed feed data — some malformed responses raise
instead (for example a top-level JSON array raises at `j.get`). -/
theorem c2_amended_empty_state :
    (∀ j : JSON, fetch_latest_play "" j = .ok none) ∧
    (∀ (href : String) (j : JSON) (ps : List JSON) (iv : JSON),
       locatePlays j = .ok ps → ps.isEmpty = true →
       itemsFallback j = .ok iv → truthy iv = false →
       fetch_latest_play href j = .ok none) ∧
    (∃ e, fetch_latest_play "http://x/pbp" (JSON.arr []) = .error e) := by
  refine ⟨fun j => rfl, ?_, ⟨.attributeError, rfl⟩⟩
  intro href j ps iv hloc hempty hfb hfalsy
  by_cases hh : href = ""
  · simp [fetch_latest_play, hh]
  · rw [fetch_latest_play, if_neg hh]
    unfold fetchPlaysFromJson
    simp only [hloc, bind, Except.bind, hempty, if_true, hfb, hfalsy,
      Bool.false_eq_true, if_false, pure, Except.pure]

/-- Witness for C2's amended theorem: the empty JSON object locates no
plays, its fallback is falsy, and the empty state is returned. -/
theorem c2_amended_empty_state_witness :
    fetch_latest_play "u" (.obj []) = .ok none :=
  c2_amended_empty_state.2.1 "u" (.obj []) [] (.arr []) rfl rfl rfl rfl

/-- C10: in `fetch_latest_play`, a falsy value (null, 0, empty string,
false) stored under the first field-position key yields field position
`0` rather than an absent one, which scores `RED_ZONE_YARDS + 50` — the
largest non-text contribution over (nonnegative) field positions; the
first listed key whose value coerces wins, and a key whose value fails
integer coercion is skipped in favor of later keys. -/
theorem c10_falsy_yardline :
    (∀ (kvs : List (String × JSON)) (v : JSON),
       pyLookup kvs "yardLine" = some v → truthy v = false →
       yardlineLoop YARD_KEYS kvs = some 0) ∧
    (∀ (kvs : List (String × JSON)) (v : JSON) (n : Int),
       pyLookup kvs "yardLine" = some v → coerceYard v = some n →
       yardlineLoop YARD_KEYS kvs = some n) ∧
    (∀ (k : String) (ks : List String) (kvs : List (String × JSON)) (v : JSON),
       pyLookup kvs k = some v → coerceYard v = none →
       yardlineLoop (k :: ks) kvs = yardlineLoop ks kvs) ∧
    scoreOf "" (some 0) = RED_ZONE_YARDS + 50 ∧
    (∀ v : Int, 0 ≤ v → scoreOf "" (some v) ≤ RED_ZONE_YARDS + 50) ∧
    fetchPlaysFromJson (.obj [("plays", .arr [.obj [("yardLine", .null)]])]) =
      .ok (some ⟨.str "", some 0, .obj [("yardLine", .null)]⟩) := by
  have hcoe : ∀ v : JSON, truthy v = false → coerceYard v = some 0 := by
    intro v hv
    unfold coerceYard pyOrElse
    rw [hv]
    rfl
  refine ⟨?_, ?_, ?_, rfl, ?_, rfl⟩
  · intro kvs v h1 h2
    simp only [YARD_KEYS, yardlineLoop, h1, hcoe v h2]
  · intro kvs v n h1 h2
    simp only [YARD_KEYS, yardlineLoop, h1, h2]
  · intro k ks kvs v h1 h2
    simp only [yardlineLoop, h1, h2]
  · intro v hv
    rw [scoreOf_decompose]
    simp only [yardScoreOf, RED_ZONE_YARDS]
    have ht : textScoreOf "" = 0 := rfl
    rw [ht]
    have hle : max 0 (20 - v + 50) ≤ 70 := max_le (by norm_num) (by omega)
    omega

/-- Witness for C10: a play whose `yardLine` is JSON null gets field
position 0. -/
theorem c10_falsy_yardline_witness :
    yardlineLoop YARD_KEYS [("yardLine", JSON.null)] = some 0 :=
  c10_falsy_yardline.1 [("yardLine", JSON.null)] JSON.null rfl rfl

/-- C3: no focus switch and no loop-state change happens while the
elapsed time since the last switch is at most the grace period, even if
the cycle's maximum score is positive; and a switch is attempted exactly
when a best game exists, its score is positive, and the elapsed time
strictly exceeds the grace period. -/
theorem c3_grace_period (activate : String → Nat → Bool) (st : LoopState)
    (outcomes : List (Option PlayState)) (tnow : Int) :
    (tnow - st.last_switch_time ≤ SWITCH_GRACE_SECONDS →
       pollCycle activate st outcomes tnow = st ∧
       switchAttempted st outcomes tnow = false) ∧
    (switchAttempted st outcomes tnow = true ↔
       ((bestOf st.game_launches outcomes).1.isSome = true ∧
         (bestOf st.game_launches outcomes).2 > 0 ∧
         tnow - st.last_switch_time > SWITCH_GRACE_SECONDS)) := by
  constructor
  · intro hle
    constructor
    · unfold pollCycle
      split
      · rfl
      · rw [if_neg (fun hc => absurd hc.2 (not_lt.mpr hle))]
    · unfold switchAttempted
      rw [decide_eq_false (not_lt.mpr hle), Bool.and_false]
  · unfold switchAttempted
    simp only [Bool.and_eq_true, decide_eq_true_eq]
    tauto

/-- Witness for C3 in a cycle whose elapsed time equals the grace
period. -/
theorem c3_grace_period_witness :
    pollCycle (fun _ _ => true) ⟨0, none, []⟩ [] 10 = ⟨0, none, []⟩ ∧
    switchAttempted ⟨0, none, []⟩ [] 10 = false :=
  (c3_grace_period (fun _ _ => true) ⟨0, none, []⟩ [] 10).1 (by decide)

/-! Section: concrete games for the C4 scenarios. -/

def entryA : LaunchEntry :=
  ⟨⟨"a1", "Alpha vs Beta", "http://a", some "http://a/pbp"⟩, "espn", "http://a"⟩

def entryB : LaunchEntry :=
  ⟨⟨"b1", "Gamma vs Delta", "http://b", some "http://b/pbp"⟩, "espn", "http://b"⟩

/-- Score 120: field position 50 contributes `max(0, (20-50)+50) = 20`,
plus 100 for the red-zone phrase. -/
def psA : PlayState := ⟨"Alpha is in the red zone", some 50⟩

/-- Score 90: field position 60 contributes 10, plus 80 for
`"touchdown"`. -/
def psB : PlayState := ⟨"touchdown Gamma", some 60⟩

def entryX : LaunchEntry :=
  ⟨⟨"x1", "Xavier vs Yale", "http://x", some "http://x/pbp"⟩, "espn", "http://x"⟩

def entryY : LaunchEntry :=
  ⟨⟨"y1", "Yeti vs Zebra", "http://y", some "http://y/pbp"⟩, "fox", "http://y"⟩

/-- Field position 8 and no phrases: score 62. -/
def psX : PlayState := ⟨"2nd and goal", some 8⟩

/-- No field position, description containing `"touchdown"`: score 80. -/
def psY : PlayState := ⟨"Touchdown Yeti!", none⟩

/-- C4: in every cycle over a non-empty entry list the scan selects a
first-seen game achieving the maximum score (the comparison is strict
`>`, so ties go to the earlier game, and `find?` of the maximum is the
selected entry); concretely, with A scoring 120 and B scoring 90 the
scan selects A, and with X scoring 62 (field position 8) and Y scoring
80 (`"touchdown"` description, no field position) the cycle selects Y. -/
theorem c4_first_seen_max :
    (∀ entries : List (LaunchEntry × PlayState), entries ≠ [] →
       (bestOfEntries entries).1.isSome = true ∧
       (bestOfEntries entries).1 =
         entries.find? (fun x => scoreOfPS x.2 == (bestOfEntries entries).2) ∧
       ∀ x ∈ entries, scoreOfPS x.2 ≤ (bestOfEntries entries).2) ∧
    scoreOfPS psA = 120 ∧ scoreOfPS psB = 90 ∧
    (bestOfEntries [(entryA, psA), (entryB, psB)]).1 = some (entryA, psA) ∧
    scoreOfPS psX = 62 ∧ scoreOfPS psY = 80 ∧
    (bestOf [entryX, entryY] [some psX, some psY]).1 = some (entryY, psY) := by
  refine ⟨?_, rfl, rfl, rfl, rfl, rfl, rfl⟩
  intro entries hne
  obtain ⟨e, rest, rfl⟩ := List.exists_cons_of_ne_nil hne
  have hs0 : (0 : Int) ≤ scoreOfPS e.2 := scoreOf_nonneg e.2.desc e.2.yardline
  have hstep : bestStep (none, -999) e = (some e, scoreOfPS e.2) := by
    unfold bestStep
    rw [if_pos (by omega)]
  have hunfold : bestOfEntries (e :: rest) = rest.foldl bestStep (some e, scoreOfPS e.2) := by
    unfold bestOfEntries
    rw [List.foldl_cons, hstep]
  have hm0 : (0 : Int) ≤ (bestOfEntries (e :: rest)).2 := by
    rw [hunfold]
    exact le_trans hs0 (bestFold_metric_mono rest (some e) _)
  refine ⟨?_, ?_, ?_⟩
  · rw [hunfold]
    exact bestFold_isSome rest e _
  · have h := bestFold_first_max (e :: rest) none (-999)
    have hcast : (e :: rest).foldl bestStep (none, -999) = bestOfEntries (e :: rest) := rfl
    rw [hcast] at h
    rw [h, if_pos (by omega)]
  · intro x hx
    have h := bestFold_metric_ge (e :: rest) none (-999) x hx
    have hcast : (e :: rest).foldl bestStep (none, -999) = bestOfEntries (e :: rest) := rfl
    rw [hcast] at h
    exact h

/-- Witness for C4's universal part on a two-entry list. -/
theorem c4_first_seen_max_witness :
    (bestOfEntries [(entryA, psA), (entryB, psB)]).1.isSome = true :=
  (c4_first_seen_max.1 [(entryA, psA), (entryB, psB)] (List.cons_ne_nil _ _)).1

/-- C7: a per-game fetch exception is equivalent to the empty play
state: its score contribution is 0, the poll cycle computes exactly what
it would with an explicit empty state (the loop always completes), and
no other game's score changes. -/
theorem c7_exception_isolated :
    (∀ g : Game, scoreOfPS (gameInfo g none) = 0) ∧
    (∀ (activate : String → Nat → Bool) (st : LoopState)
       (outcomes : List (Option PlayState)) (i : Nat) (tnow : Int),
       pollCycle activate st (outcomes.set i none) tnow =
         pollCycle activate st (outcomes.set i (some emptyPlayState)) tnow) ∧
    (∀ (launches : List LaunchEntry) (outcomes : List (Option PlayState)) (i j : Nat)
       (o : Option PlayState), j ≠ i →
       (cycleScores launches (outcomes.set i o)).get? j =
         (cycleScores launches outcomes).get? j) := by
  refine ⟨?_, ?_, ?_⟩
  · intro g
    rw [gameInfo_none_eq_empty]
    rfl
  · intro activate st outcomes i tnow
    have hce : cycleEntries st.game_launches (outcomes.set i none) =
        cycleEntries st.game_launches (outcomes.set i (some emptyPlayState)) :=
      cycleEntries_set_congr st.game_launches outcomes i none (some emptyPlayState)
        (fun g => gameInfo_none_eq g)
    unfold pollCycle bestOf
    rw [hce]
  · intro launches outcomes i j o hne
    exact cycleScores_set_ne launches outcomes i j o hne

/-- Witness for C7's frame part at concrete indices. -/
theorem c7_exception_isolated_witness :
    (cycleScores [entryX, entryY] ([some psX, some psY].set 0 none)).get? 1 =
      (cycleScores [entryX, entryY] [some psX, some psY]).get? 1 :=
  c7_exception_isolated.2.2 [entryX, entryY] [some psX, some psY] 0 1 none (by decide)

/-- C8: when a switch is attempted, a successful activation (either the
display-name hint or the URL retry succeeds) updates exactly the two
loop variables `last_switch_time` and `currently_featured_game` — the
tracked list is untouched — while a failed activation (both attempts
fail) leaves the whole loop state unchanged. -/
theorem c8_switch_frame (activate : String → Nat → Bool) (st : LoopState)
    (outcomes : List (Option PlayState)) (tnow : Int) (b : LaunchEntry × PlayState)
    (hb : (bestOf st.game_launches outcomes).1 = some b)
    (hpos : (bestOf st.game_launches outcomes).2 > 0)
    (hgrace : tnow - st.last_switch_time > SWITCH_GRACE_SECONDS) :
    ((activate (title_hint b.1.game) 4 || activate b.1.url 2) = true →
       pollCycle activate st outcomes tnow =
         { last_switch_time := tnow,
           currently_featured_game := some b.1.game,
           game_launches := st.game_launches }) ∧
    ((activate (title_hint b.1.game) 4 || activate b.1.url 2) = false →
       pollCycle activate st outcomes tnow = st) := by
  unfold pollCycle
  simp only [hb]
  rw [if_pos ⟨hpos, hgrace⟩]
  constructor
  · intro hs
    rw [if_pos hs]
  · intro hs
    rw [if_neg (by rw [hs]; exact Bool.false_ne_true)]

/-- Witness for C8: with an oracle that always activates, the cycle
switches and records exactly the new time and featured game. -/
theorem c8_switch_frame_witness :
    pollCycle (fun _ _ => true) ⟨0, none, [entryY]⟩ [some psY] 100 =
      { last_switch_time := 100,
        currently_featured_game := some entryY.game,
        game_launches := [entryY] } :=
  (c8_switch_frame (fun _ _ => true) ⟨0, none, [entryY]⟩ [some psY] 100 (entryY, psY)
    rfl (by decide) (by decide)).1 rfl

/-! Section: concrete scoreboard data for C9. -/

/-- An event with a summary link: contributes a game. -/
def sbEvent1 : JSON :=
  .obj [("id", .str "1"),
        ("links", .arr [.obj [("rel", .arr [.str "summary"]),
                              ("href", .str "http://g1")]])]

/-- An event with no links at all: silently omitted. -/
def sbEvent2 : JSON := .obj [("id", .str "2")]

def sbExample : JSON := .obj [("events", .arr [sbEvent1, sbEvent2])]

/-- C9: every game `fetch_scoreboard` returns carries a truthy
(non-empty) summary href, and the returned list is never longer than the
feed's event list; concretely, a two-event feed whose second event
yields no link produces only one game. -/
theorem c9_scoreboard_href_invariant :
    (∀ (data : JSON) (gs : List SBGame), fetch_scoreboard data = .ok gs →
       (∀ g ∈ gs, truthy g.competition_href = true) ∧
       ∀ evs, eventsOf data = .ok evs → gs.length ≤ evs.length) ∧
    (fetch_scoreboard sbExample).map List.length = .ok 1 ∧
    (eventsOf sbExample).map List.length = .ok 2 := by
  refine ⟨?_, rfl, rfl⟩
  intro data gs h
  unfold fetch_scoreboard at h
  cases he : eventsOf data with
  | error e =>
    rw [he] at h
    cases h
  | ok evs =>
    rw [he] at h
    have hloop : scoreboardLoop evs [] = .ok gs := h
    have hi := scoreboardLoop_inv evs [] gs hloop
    constructor
    · intro g hg
      rcases hi.1 g hg with h0 | h1
      · cases h0
      · exact h1
    · intro evs2 he2
      have hv : evs2 = evs := (Except.ok.inj he2).symm
      subst hv
      simpa using hi.2

/-- Witness for C9: the game produced by the concrete feed carries a
truthy href. -/
theorem c9_scoreboard_href_invariant_witness :
    truthy (JSON.str "http://g1") = true :=
  (c9_scoreboard_href_invariant.1 sbExample
      [⟨"1", .str "1", .str "http://g1", none⟩] rfl).1
    ⟨"1", .str "1", .str "http://g1", none⟩ (List.mem_singleton.mpr rfl)
